import Mathlib

/-!
Shallow embedding of the recurring-remittance Soroban contract
(src/recurring_remittance/src/lib.rs) and verification of its
specification claims.

Modelling conventions:
- `Address` is modelled as `Nat` (used only for equality checks).
- `u32`/`u64` values are modelled as `Nat` and `i128` as `Int`; the
  contract performs only the addition `now + days * 86400`, far below the
  64-bit range for meaningful inputs, and the build traps on overflow, so
  unbounded arithmetic is faithful.
- Rust panics are modelled as `Except.error` values of `ContractError`,
  one constructor per distinct panic site; a panic aborts the transaction,
  so the store is unchanged on error (made explicit by `step`).
- The soroban `Map<u32, RemittanceSchedule>` is modelled as an association
  list with `mapGet`/`mapSet`/`mapRemove` mirroring `get`/`set`/`remove`.
- `execute_schedule` returns `true`/`false` in the source; this is
  modelled by `ExecResult.success`/`ExecResult.expired`, paired with the
  updated store and the list of emitted events.
-/

/-- Schedule frequency type, mirroring `ScheduleFrequency` in the source.
The Rust enum carries discriminants (Weekly = 7, BiWeekly = 14,
Monthly = 30, Custom = 0) read back via an `as u32` cast, modelled by
`ScheduleFrequency.discr`. -/
inductive ScheduleFrequency
  | Weekly
  | BiWeekly
  | Monthly
  | Custom
deriving DecidableEq

/-- Numeric discriminant of the Rust enum, as read by `frequency as u32`. -/
def ScheduleFrequency.discr : ScheduleFrequency → Nat
  | .Weekly => 7
  | .BiWeekly => 14
  | .Monthly => 30
  | .Custom => 0

/-- Recurring remittance schedule record, mirroring `RemittanceSchedule`. -/
structure RemittanceSchedule where
  id : Nat
  owner : Nat
  amount : Int
  split_config_id : Option Nat
  frequency : ScheduleFrequency
  frequency_days : Nat
  start_timestamp : Nat
  end_timestamp : Option Nat
  active : Bool
  last_executed : Option Nat
  next_execution : Nat
  created_at : Nat
deriving DecidableEq

/-- Events published by the contract, mirroring `ScheduleEvent`. -/
inductive ScheduleEvent
  | Created
  | Executed
  | Paused
  | Resumed
  | Modified
  | Cancelled
deriving DecidableEq

/-- Error type: one constructor per distinct panic site of the contract. -/
inductive ContractError
  | amountNotPositive
  | customNeedsDays
  | startInPast
  | endNotAfterStart
  | scheduleNotFound
  | notActive
  | notReady
  | notOwner
deriving DecidableEq

/-- Errors raised by the parameter validation in `create_schedule`
(the spec groups these four panic sites as `ValidationError`). -/
def ContractError.isValidation : ContractError → Bool
  | .amountNotPositive => true
  | .customNeedsDays => true
  | .startInPast => true
  | .endNotAfterStart => true
  | _ => false

/-- Result of `execute_schedule`: the source returns `true` on success and
`false` on the expiry path. -/
inductive ExecResult
  | success
  | expired
deriving DecidableEq

/-- Association-list model of the soroban `Map<u32, RemittanceSchedule>`. -/
abbrev ScheduleMap := List (Nat × RemittanceSchedule)

/-- Lookup mirroring `Map::get`. -/
def mapGet (m : ScheduleMap) (k : Nat) : Option RemittanceSchedule :=
  match m with
  | [] => none
  | (k', v) :: rest => if k = k' then some v else mapGet rest k

/-- Update-or-insert mirroring `Map::set`. -/
def mapSet (m : ScheduleMap) (k : Nat) (v : RemittanceSchedule) : ScheduleMap :=
  match m with
  | [] => [(k, v)]
  | (k', v') :: rest => if k = k' then (k, v) :: rest else (k', v') :: mapSet rest k v

/-- Deletion mirroring `Map::remove`. -/
def mapRemove (m : ScheduleMap) (k : Nat) : ScheduleMap :=
  match m with
  | [] => []
  | (k', v') :: rest => if k = k' then mapRemove rest k else (k', v') :: mapRemove rest k

/-- Contract instance storage: the `SCHEDULES` map and the `NEXT_ID`
counter (absent keys read as the empty map and `0`, so the initial state
is `⟨[], 0⟩`). -/
structure Store where
  schedules : ScheduleMap
  next_id : Nat
deriving DecidableEq

/-- Initial (empty) instance storage. -/
def initStore : Store := { schedules := [], next_id := 0 }

/-- End-timestamp validation used by `create_schedule`: fails when an end
is present and `end <= start_timestamp`. -/
def endBad : Option Nat → Nat → Bool
  | some e, start => decide (e ≤ start)
  | none, _ => false

/-- Embedding of `create_schedule`. `now` is `env.ledger().timestamp()`;
authorization of `owner` is delegated to the host and assumed granted.
Returns the new id and the updated store. -/
def create_schedule (s : Store) (now : Nat) (owner : Nat) (amount : Int)
    (split_config_id : Option Nat) (frequency : ScheduleFrequency)
    (frequency_days : Nat) (start_timestamp : Nat)
    (end_timestamp : Option Nat) : Except ContractError (Nat × Store) :=
  if amount ≤ 0 then .error .amountNotPositive
  else if frequency = .Custom ∧ frequency_days = 0 then .error .customNeedsDays
  else if start_timestamp < now then .error .startInPast
  else if endBad end_timestamp start_timestamp then .error .endNotAfterStart
  else
    let next_id := s.next_id + 1
    let schedule : RemittanceSchedule :=
      { id := next_id, owner := owner, amount := amount,
        split_config_id := split_config_id, frequency := frequency,
        frequency_days := frequency_days, start_timestamp := start_timestamp,
        end_timestamp := end_timestamp, active := true, last_executed := none,
        next_execution := start_timestamp, created_at := now }
    .ok (next_id, { schedules := mapSet s.schedules next_id schedule,
                    next_id := next_id })

/-- Period in days used on successful execution: `frequency_days` for
Custom, the enum discriminant otherwise. -/
def periodDays (schedule : RemittanceSchedule) : Nat :=
  match schedule.frequency with
  | .Custom => schedule.frequency_days
  | f => f.discr

/-- Expiry test inside `execute_schedule`: an end is present and
`now > end`. -/
def pastEnd (schedule : RemittanceSchedule) (now : Nat) : Bool :=
  match schedule.end_timestamp with
  | some e => decide (e < now)
  | none => false

/-- Embedding of `execute_schedule`. Returns the boolean result (as
`ExecResult`), the updated store, and the events published. -/
def execute_schedule (s : Store) (now : Nat) (schedule_id : Nat) :
    Except ContractError (ExecResult × Store × List ScheduleEvent) :=
  match mapGet s.schedules schedule_id with
  | none => .error .scheduleNotFound
  | some schedule =>
    if schedule.active = false then .error .notActive
    else if now < schedule.next_execution then .error .notReady
    else if pastEnd schedule now then
      .ok (.expired,
           { s with schedules := mapSet s.schedules schedule_id
                      { schedule with active := false } },
           [])
    else
      let days := periodDays schedule
      let schedule' := { schedule with last_executed := some now,
                                       next_execution := now + days * 86400 }
      .ok (.success,
           { s with schedules := mapSet s.schedules schedule_id schedule' },
           [.Executed])

/-- Embedding of `pause_schedule` (caller authorization assumed granted). -/
def pause_schedule (s : Store) (caller : Nat) (schedule_id : Nat) :
    Except ContractError Store :=
  match mapGet s.schedules schedule_id with
  | none => .error .scheduleNotFound
  | some schedule =>
    if schedule.owner ≠ caller then .error .notOwner
    else .ok { s with schedules := mapSet s.schedules schedule_id
                        { schedule with active := false } }

/-- Embedding of `resume_schedule` (caller authorization assumed granted). -/
def resume_schedule (s : Store) (caller : Nat) (schedule_id : Nat) :
    Except ContractError Store :=
  match mapGet s.schedules schedule_id with
  | none => .error .scheduleNotFound
  | some schedule =>
    if schedule.owner ≠ caller then .error .notOwner
    else .ok { s with schedules := mapSet s.schedules schedule_id
                        { schedule with active := true } }

/-- Amount update step of `modify_schedule`. -/
def modAmount (schedule : RemittanceSchedule) :
    Option Int → Except ContractError RemittanceSchedule
  | none => .ok schedule
  | some a => if a ≤ 0 then .error .amountNotPositive
              else .ok { schedule with amount := a }

/-- Frequency / frequency-days update step of `modify_schedule`: when a
new frequency is supplied it is stored first, and a supplied
`frequency_days` is validated and stored only when the (new or stored)
frequency is Custom. -/
def modFrequency (schedule : RemittanceSchedule) :
    Option ScheduleFrequency → Option Nat →
    Except ContractError RemittanceSchedule
  | some f, days? =>
    let schedule' := { schedule with frequency := f }
    if f = .Custom then
      match days? with
      | some d => if d = 0 then .error .customNeedsDays
                  else .ok { schedule' with frequency_days := d }
      | none => .ok schedule'
    else .ok schedule'
  | none, some d =>
    if schedule.frequency = .Custom then
      if d = 0 then .error .customNeedsDays
      else .ok { schedule with frequency_days := d }
    else .ok schedule
  | none, none => .ok schedule

/-- End-timestamp update step of `modify_schedule` (optional-of-optional:
`none` leaves the field, `some none` clears it, `some (some e)` sets it
after checking `e > start_timestamp`). -/
def modEnd (schedule : RemittanceSchedule) :
    Option (Option Nat) → Except ContractError RemittanceSchedule
  | none => .ok schedule
  | some newEnd =>
    match newEnd with
    | some e => if e ≤ schedule.start_timestamp then .error .endNotAfterStart
                else .ok { schedule with end_timestamp := some e }
    | none => .ok { schedule with end_timestamp := none }

/-- Embedding of `modify_schedule` (caller authorization assumed granted). -/
def modify_schedule (s : Store) (caller : Nat) (schedule_id : Nat)
    (amount : Option Int) (frequency : Option ScheduleFrequency)
    (frequency_days : Option Nat) (end_timestamp : Option (Option Nat)) :
    Except ContractError Store :=
  match mapGet s.schedules schedule_id with
  | none => .error .scheduleNotFound
  | some schedule =>
    if schedule.owner ≠ caller then .error .notOwner
    else
      match modAmount schedule amount with
      | .error e => .error e
      | .ok s1 =>
        match modFrequency s1 frequency frequency_days with
        | .error e => .error e
        | .ok s2 =>
          match modEnd s2 end_timestamp with
          | .error e => .error e
          | .ok s3 => .ok { s with schedules := mapSet s.schedules schedule_id s3 }

/-- Embedding of `cancel_schedule` (caller authorization assumed granted). -/
def cancel_schedule (s : Store) (caller : Nat) (schedule_id : Nat) :
    Except ContractError Store :=
  match mapGet s.schedules schedule_id with
  | none => .error .scheduleNotFound
  | some schedule =>
    if schedule.owner ≠ caller then .error .notOwner
    else .ok { s with schedules := mapRemove s.schedules schedule_id }

/-- Eligibility test of `get_ready_schedules`: active, due, and not past
an end date (`end >= now` keeps the boundary `now = end` eligible). -/
def readyCond (schedule : RemittanceSchedule) (now : Nat) : Bool :=
  schedule.active && decide (schedule.next_execution ≤ now) &&
    (match schedule.end_timestamp with
     | none => true
     | some e => decide (now ≤ e))

/-- Embedding of `get_ready_schedules`: a scan `for i in 1..=NEXT_ID`
pushing every stored schedule passing `readyCond`. -/
def get_ready_schedules (s : Store) (now : Nat) : List RemittanceSchedule :=
  (List.range' 1 s.next_id).filterMap (fun i =>
    match mapGet s.schedules i with
    | some schedule => if readyCond schedule now then some schedule else none
    | none => none)

/-- Embedding of `get_schedule`. -/
def get_schedule (s : Store) (schedule_id : Nat) : Option RemittanceSchedule :=
  mapGet s.schedules schedule_id

/-- One public mutating call of the contract, with its non-store inputs. -/
inductive Op
  | create (owner : Nat) (amount : Int) (split : Option Nat)
      (frequency : ScheduleFrequency) (days : Nat) (start : Nat)
      (endT : Option Nat)
  | execute (schedule_id : Nat)
  | pause (caller : Nat) (schedule_id : Nat)
  | resume (caller : Nat) (schedule_id : Nat)
  | modify (caller : Nat) (schedule_id : Nat) (amount : Option Int)
      (frequency : Option ScheduleFrequency) (days : Option Nat)
      (endT : Option (Option Nat))
  | cancel (caller : Nat) (schedule_id : Nat)

/-- Store transition of one call at ledger time `now`: a panicking call
aborts the transaction and leaves the store unchanged. -/
def step (s : Store) (now : Nat) : Op → Store
  | .create owner amount split frequency days start endT =>
    match create_schedule s now owner amount split frequency days start endT with
    | .ok (_, s') => s'
    | .error _ => s
  | .execute schedule_id =>
    match execute_schedule s now schedule_id with
    | .ok (_, s', _) => s'
    | .error _ => s
  | .pause caller schedule_id =>
    match pause_schedule s caller schedule_id with
    | .ok s' => s'
    | .error _ => s
  | .resume caller schedule_id =>
    match resume_schedule s caller schedule_id with
    | .ok s' => s'
    | .error _ => s
  | .modify caller schedule_id amount frequency days endT =>
    match modify_schedule s caller schedule_id amount frequency days endT with
    | .ok s' => s'
    | .error _ => s
  | .cancel caller schedule_id =>
    match cancel_schedule s caller schedule_id with
    | .ok s' => s'
    | .error _ => s

/-- Replay a trace of timestamped calls from a starting store. -/
def runTrace : Store → List (Nat × Op) → Store
  | s, [] => s
  | s, (now, op) :: rest => runTrace (step s now op) rest

/-! ## Helper lemmas about the association-list map -/

/-- Lookup after `mapSet`: the written key reads back the new value and
other keys are untouched. -/
theorem mapGet_mapSet (m : ScheduleMap) (k j : Nat) (v : RemittanceSchedule) :
    mapGet (mapSet m k v) j = if j = k then some v else mapGet m j := by
  induction m with
  | nil => simp [mapSet, mapGet]
  | cons p rest ih =>
    obtain ⟨k', v'⟩ := p
    by_cases hk : k = k'
    · subst hk
      simp only [mapSet, if_pos rfl, mapGet]
      by_cases hj : j = k <;> simp [hj]
    · simp only [mapSet, if_neg hk, mapGet, ih]
      by_cases hj : j = k'
      · subst hj
        simp [Ne.symm hk, mapGet]
      · simp [hj]

/-- Overwriting the same key twice keeps only the second write. -/
theorem mapSet_mapSet (m : ScheduleMap) (k : Nat) (v w : RemittanceSchedule) :
    mapSet (mapSet m k v) k w = mapSet m k w := by
  induction m with
  | nil => simp [mapSet]
  | cons p rest ih =>
    obtain ⟨k', v'⟩ := p
    by_cases hk : k = k'
    · subst hk
      simp [mapSet]
    · simp [mapSet, hk, ih]

/-- A successful lookup comes from an entry of the list. -/
theorem mapGet_mem {m : ScheduleMap} {k : Nat} {v : RemittanceSchedule}
    (h : mapGet m k = some v) : (k, v) ∈ m := by
  induction m with
  | nil => simp [mapGet] at h
  | cons p rest ih =>
    obtain ⟨k', v'⟩ := p
    simp only [mapGet] at h
    by_cases hk : k = k'
    · rw [if_pos hk] at h
      cases h
      subst hk
      exact List.mem_cons_self _ _
    · rw [if_neg hk] at h
      exact List.mem_cons_of_mem _ (ih h)

/-! ## Sample states used by the witness theorems -/

/-- Sample weekly schedule (id 1, owner 7, due at 100, no end date). -/
def sampleSched : RemittanceSchedule where
  id := 1
  owner := 7
  amount := 1000
  split_config_id := none
  frequency := .Weekly
  frequency_days := 0
  start_timestamp := 100
  end_timestamp := none
  active := true
  last_executed := none
  next_execution := 100
  created_at := 0

/-- Store holding just `sampleSched`. -/
def sampleStore : Store := { schedules := [(1, sampleSched)], next_id := 1 }

/-! ## Claim theorems -/

/-- C2: for every stored schedule that is active, due (`now >=
next_execution`) and not past its end date, `execute_schedule` returns
success and updates exactly `last_executed` (to `now`) and
`next_execution` (to `now + days * 86400`), where `days` is 7 for Weekly,
14 for BiWeekly, 30 for Monthly and `frequency_days` for Custom; all
other fields and the rest of the store are unchanged. -/
theorem execute_success_spec (s : Store) (now schedule_id : Nat)
    (sched : RemittanceSchedule)
    (hget : mapGet s.schedules schedule_id = some sched)
    (hact : sched.active = true)
    (hdue : sched.next_execution ≤ now)
    (hend : ∀ e, sched.end_timestamp = some e → now ≤ e) :
    execute_schedule s now schedule_id =
      .ok (.success,
        { s with schedules := mapSet s.schedules schedule_id
                                { sched with last_executed := some now,
                                             next_execution := now + periodDays sched * 86400 } },
        [.Executed])
    ∧ (sched.frequency = .Weekly → periodDays sched = 7)
    ∧ (sched.frequency = .BiWeekly → periodDays sched = 14)
    ∧ (sched.frequency = .Monthly → periodDays sched = 30)
    ∧ (sched.frequency = .Custom → periodDays sched = sched.frequency_days) := by
  have hpe : pastEnd sched now = false := by
    unfold pastEnd
    cases he : sched.end_timestamp with
    | none => rfl
    | some e => simp [Nat.not_lt.mpr (hend e he)]
  refine ⟨?_, ?_, ?_, ?_, ?_⟩
  · unfold execute_schedule
    rw [hget]
    simp [hact, Nat.not_lt.mpr hdue, hpe]
  all_goals intro hf
  all_goals simp [periodDays, hf, ScheduleFrequency.discr]

/-- Witness for C2 at a concrete store: the sample weekly schedule,
executed exactly at its due time 100. -/
theorem execute_success_spec_witness :
    mapGet sampleStore.schedules 1 = some sampleSched ∧
    execute_schedule sampleStore 100 1 =
      .ok (.success,
        { sampleStore with
            schedules := mapSet sampleStore.schedules 1
                           { sampleSched with last_executed := some 100,
                                              next_execution := 100 + periodDays sampleSched * 86400 } },
        [.Executed]) :=
  ⟨rfl,
   (execute_success_spec sampleStore 100 1 sampleSched rfl rfl (by decide)
      (by intro e h; cases h)).1⟩

/-- C4: for a stored schedule that is active, due, and whose end date is
present and strictly passed (`now > end`), `execute_schedule` only flips
`active` to `false`, persists it, returns the expired outcome (`false` in
the source, not success) and publishes no event; `last_executed`,
`next_execution` and all other fields are unchanged. The second conjunct
shows this is the only way `execute_schedule` — the one mutating
entry point not guarded by owner authorization — moves a schedule out of
the active state: any schedule whose `active` flag it turns off is the
requested one and had a strictly passed end date. -/
theorem execute_expired_spec (s : Store) (now schedule_id : Nat)
    (sched : RemittanceSchedule) (e : Nat)
    (hget : mapGet s.schedules schedule_id = some sched)
    (hact : sched.active = true)
    (hdue : sched.next_execution ≤ now)
    (hend : sched.end_timestamp = some e)
    (hlate : e < now) :
    execute_schedule s now schedule_id =
      .ok (.expired,
        { s with schedules := mapSet s.schedules schedule_id
                                { sched with active := false } },
        [])
    ∧ (∀ r s' evs, execute_schedule s now schedule_id = .ok (r, s', evs) →
        ∀ k sch sch', mapGet s.schedules k = some sch →
          mapGet s'.schedules k = some sch' →
          sch.active = true → sch'.active = false →
          k = schedule_id ∧ ∃ en, sch.end_timestamp = some en ∧ en < now) := by
  have hpe : pastEnd sched now = true := by
    unfold pastEnd
    rw [hend]
    simpa using hlate
  have hmain : execute_schedule s now schedule_id =
      .ok (.expired,
        { s with schedules := mapSet s.schedules schedule_id
                                { sched with active := false } },
        []) := by
    unfold execute_schedule
    rw [hget]
    simp [hact, Nat.not_lt.mpr hdue, hpe]
  refine ⟨hmain, ?_⟩
  intro r s' evs hx k sch sch' hk hk' hsa hsa'
  rw [hmain] at hx
  obtain ⟨hr, hs', hevs⟩ := by simpa using hx
  subst hs'
  rw [mapGet_mapSet] at hk'
  by_cases hkid : k = schedule_id
  · subst hkid
    rw [hget] at hk
    cases hk
    exact ⟨rfl, e, hend, hlate⟩
  · rw [if_neg hkid, hk] at hk'
    cases hk'
    rw [hsa] at hsa'
    cases hsa'

/-- Sample schedule whose end date 150 has passed by time 200. -/
def expiredSched : RemittanceSchedule := { sampleSched with end_timestamp := some 150 }

/-- Store holding just `expiredSched`. -/
def expiredStore : Store := { schedules := [(1, expiredSched)], next_id := 1 }

/-- Witness for C4: executing the sample ended schedule at time 200
deactivates it and returns the expired outcome with no event. -/
theorem execute_expired_spec_witness :
    mapGet expiredStore.schedules 1 = some expiredSched ∧
    execute_schedule expiredStore 200 1 =
      .ok (.expired,
        { expiredStore with
            schedules := mapSet expiredStore.schedules 1
                           { expiredSched with active := false } },
        []) :=
  ⟨rfl,
   (execute_expired_spec expiredStore 200 1 expiredSched 150 rfl rfl
      (by decide) rfl (by decide)).1⟩

/-- C5: `execute_schedule` checks, in order: missing id (NotFound), then
`active = false` (NotActive, regardless of dueness or expiry), then
`now < next_execution` (NotDue, regardless of expiry); each failure
leaves the store unchanged (last conjunct, via `step`). -/
theorem execute_error_order (s : Store) (now schedule_id : Nat) :
    (mapGet s.schedules schedule_id = none →
      execute_schedule s now schedule_id = .error .scheduleNotFound)
    ∧ (∀ sched, mapGet s.schedules schedule_id = some sched →
        sched.active = false →
        execute_schedule s now schedule_id = .error .notActive)
    ∧ (∀ sched, mapGet s.schedules schedule_id = some sched →
        sched.active = true → now < sched.next_execution →
        execute_schedule s now schedule_id = .error .notReady)
    ∧ (∀ e, execute_schedule s now schedule_id = .error e →
        step s now (.execute schedule_id) = s) := by
  refine ⟨?_, ?_, ?_, ?_⟩
  · intro h
    unfold execute_schedule
    rw [h]
  · intro sched hget hina
    unfold execute_schedule
    rw [hget]
    simp [hina]
  · intro sched hget hact hnd
    unfold execute_schedule
    rw [hget]
    simp [hact, hnd]
  · intro e hx
    simp [step, hx]

/-- Store holding the sample schedule in paused state. -/
def pausedStore : Store :=
  { schedules := [(1, { sampleSched with active := false })], next_id := 1 }

/-- Witness for C5: the three failure cases on concrete stores (empty
store; paused schedule; active schedule polled before its due time 100),
each leaving the store unchanged. -/
theorem execute_error_order_witness :
    execute_schedule initStore 0 1 = .error .scheduleNotFound
    ∧ execute_schedule pausedStore 500 1 = .error .notActive
    ∧ execute_schedule sampleStore 50 1 = .error .notReady
    ∧ step sampleStore 50 (.execute 1) = sampleStore :=
  ⟨(execute_error_order initStore 0 1).1 rfl,
   (execute_error_order pausedStore 500 1).2.1 _ rfl rfl,
   (execute_error_order sampleStore 50 1).2.2.1 _ rfl rfl (by decide),
   (execute_error_order sampleStore 50 1).2.2.2 _
     ((execute_error_order sampleStore 50 1).2.2.1 _ rfl rfl (by decide))⟩

/-- C3: `create_schedule` fails with a validation error exactly when
`amount <= 0`, or `frequency = Custom` with `frequency_days = 0`, or
`start < now`, or an end is present with `end <= start`; and every
failure leaves the store unchanged (via `step`). -/
theorem create_validation_spec (s : Store) (now owner : Nat) (amount : Int)
    (split : Option Nat) (frequency : ScheduleFrequency) (days start : Nat)
    (endT : Option Nat) :
    ((∃ e, create_schedule s now owner amount split frequency days start endT
             = .error e ∧ e.isValidation = true) ↔
      (amount ≤ 0 ∨ (frequency = .Custom ∧ days = 0) ∨ start < now ∨
        ∃ en, endT = some en ∧ en ≤ start))
    ∧ (∀ e, create_schedule s now owner amount split frequency days start endT
              = .error e →
        step s now (.create owner amount split frequency days start endT) = s) := by
  constructor
  · constructor
    · rintro ⟨e, he, -⟩
      unfold create_schedule at he
      split_ifs at he with h1 h2 h3 h4
      · exact Or.inl h1
      · exact Or.inr (Or.inl h2)
      · exact Or.inr (Or.inr (Or.inl h3))
      · refine Or.inr (Or.inr (Or.inr ?_))
        cases hE : endT with
        | none => rw [hE] at h4; simp [endBad] at h4
        | some en =>
          rw [hE] at h4
          exact ⟨en, rfl, by simpa [endBad] using h4⟩
    · intro hcond
      unfold create_schedule
      split_ifs with h1 h2 h3 h4
      · exact ⟨_, rfl, rfl⟩
      · exact ⟨_, rfl, rfl⟩
      · exact ⟨_, rfl, rfl⟩
      · exact ⟨_, rfl, rfl⟩
      · rcases hcond with h | h | h | ⟨en, hen, hle⟩
        · exact absurd h h1
        · exact absurd h h2
        · exact absurd h h3
        · exact absurd (by simp [endBad, hen, hle]) h4
  · intro e hx
    simp [step, hx]

/-- Witness for C3: creating with `amount = 0` on the empty store fails
with a validation error and leaves the store unchanged. -/
theorem create_validation_spec_witness :
    (∃ e, create_schedule initStore 0 9 0 none .Weekly 0 5 none
            = .error e ∧ e.isValidation = true)
    ∧ step initStore 0 (.create 9 0 none .Weekly 0 5 none) = initStore := by
  have h := create_validation_spec initStore 0 9 0 none .Weekly 0 5 none
  have hfail := h.1.mpr (Or.inl (by decide))
  obtain ⟨e, he, hv⟩ := hfail
  exact ⟨⟨e, he, hv⟩, h.2 e he⟩

/-- C9: for every parameter tuple passing validation, `create_schedule`
returns the fresh id `next_id + 1` together with a store in which that id
maps to a record with exactly the given parameters, `next_execution =
start_timestamp`, `active = true`, `last_executed = none` and
`created_at = now`. -/
theorem create_success_spec (s : Store) (now owner : Nat) (amount : Int)
    (split : Option Nat) (frequency : ScheduleFrequency) (days start : Nat)
    (endT : Option Nat)
    (h1 : 0 < amount)
    (h2 : frequency = .Custom → days ≠ 0)
    (h3 : now ≤ start)
    (h4 : ∀ e, endT = some e → start < e) :
    ∃ s', create_schedule s now owner amount split frequency days start endT
            = .ok (s.next_id + 1, s')
      ∧ mapGet s'.schedules (s.next_id + 1) = some
          { id := s.next_id + 1, owner := owner, amount := amount,
            split_config_id := split, frequency := frequency,
            frequency_days := days, start_timestamp := start,
            end_timestamp := endT, active := true, last_executed := none,
            next_execution := start, created_at := now }
      ∧ s'.next_id = s.next_id + 1 := by
  have hn1 : ¬ amount ≤ 0 := by omega
  have hn2 : ¬ (frequency = .Custom ∧ days = 0) := by
    rintro ⟨hf, hd⟩
    exact h2 hf hd
  have hn3 : ¬ start < now := Nat.not_lt.mpr h3
  have hn4 : ¬ endBad endT start = true := by
    cases hE : endT with
    | none => simp [endBad]
    | some en => simp [endBad, Nat.not_le.mpr (h4 en hE)]
  refine ⟨⟨mapSet s.schedules (s.next_id + 1)
      { id := s.next_id + 1, owner := owner, amount := amount,
        split_config_id := split, frequency := frequency,
        frequency_days := days, start_timestamp := start,
        end_timestamp := endT, active := true, last_executed := none,
        next_execution := start, created_at := now }, s.next_id + 1⟩,
    ?_, ?_, rfl⟩
  · unfold create_schedule
    rw [if_neg hn1, if_neg hn2, if_neg hn3, if_neg hn4]
  · rw [mapGet_mapSet]
    simp

/-- Witness for C9: a valid creation on the empty store at time 0
(amount 1000, Weekly, start 5, no end) yields id 1 with the expected
record. -/
theorem create_success_spec_witness :
    ∃ s', create_schedule initStore 0 9 1000 none .Weekly 0 5 none
            = .ok (initStore.next_id + 1, s')
      ∧ mapGet s'.schedules (initStore.next_id + 1) = some
          { id := initStore.next_id + 1, owner := 9, amount := 1000,
            split_config_id := none, frequency := .Weekly,
            frequency_days := 0, start_timestamp := 5,
            end_timestamp := none, active := true, last_executed := none,
            next_execution := 5, created_at := 0 }
      ∧ s'.next_id = initStore.next_id + 1 :=
  create_success_spec initStore 0 9 1000 none .Weekly 0 5 none (by decide)
    (by intro h; cases h) (by decide) (by intro e h; cases h)

/-- Effect of `pause_schedule` on a stored schedule owned by the caller. -/
theorem pause_eq (s : Store) (caller schedule_id : Nat)
    (sched : RemittanceSchedule)
    (hget : mapGet s.schedules schedule_id = some sched)
    (hown : sched.owner = caller) :
    pause_schedule s caller schedule_id =
      .ok { s with schedules := mapSet s.schedules schedule_id
                                  { sched with active := false } } := by
  unfold pause_schedule
  simp only [hget]
  rw [if_neg (by simp [hown])]

/-- Effect of `resume_schedule` on a stored schedule owned by the caller. -/
theorem resume_eq (s : Store) (caller schedule_id : Nat)
    (sched : RemittanceSchedule)
    (hget : mapGet s.schedules schedule_id = some sched)
    (hown : sched.owner = caller) :
    resume_schedule s caller schedule_id =
      .ok { s with schedules := mapSet s.schedules schedule_id
                                  { sched with active := true } } := by
  unfold resume_schedule
  simp only [hget]
  rw [if_neg (by simp [hown])]

/-- C7: for a stored schedule owned by the caller, `resume_schedule`
unconditionally sets `active := true` and changes nothing else — it takes
no timestamp at all, so in particular it succeeds even when the current
time exceeds `end_timestamp` (an engine-expired schedule becomes eligible
again). Consequently `pause_schedule` followed by `resume_schedule`
restores the record to its original value with `active` back to `true`,
leaving every other entry of the store untouched. -/
theorem resume_spec (s : Store) (caller schedule_id : Nat)
    (sched : RemittanceSchedule)
    (hget : mapGet s.schedules schedule_id = some sched)
    (hown : sched.owner = caller) :
    resume_schedule s caller schedule_id =
      .ok { s with schedules := mapSet s.schedules schedule_id
                                  { sched with active := true } }
    ∧ (∀ s1, pause_schedule s caller schedule_id = .ok s1 →
        ∃ s2, resume_schedule s1 caller schedule_id = .ok s2
          ∧ mapGet s2.schedules schedule_id = some { sched with active := true }
          ∧ (∀ k, k ≠ schedule_id → mapGet s2.schedules k = mapGet s.schedules k)
          ∧ s2.next_id = s.next_id) := by
  refine ⟨resume_eq s caller schedule_id sched hget hown, ?_⟩
  intro s1 hp
  rw [pause_eq s caller schedule_id sched hget hown] at hp
  injection hp with hs1
  subst hs1
  have hget1 : mapGet (mapSet s.schedules schedule_id
      { sched with active := false }) schedule_id =
      some { sched with active := false } := by
    rw [mapGet_mapSet, if_pos rfl]
  refine ⟨_, resume_eq _ caller schedule_id _ hget1 hown, ?_, ?_, rfl⟩
  · simp only [mapSet_mapSet]
    rw [mapGet_mapSet, if_pos rfl]
  · intro k hk
    simp only [mapSet_mapSet]
    rw [mapGet_mapSet, if_neg hk]

/-- Witness for C7: pausing then resuming the sample schedule (owner 7)
restores its record with `active = true`, which is the original record. -/
theorem resume_spec_witness :
    resume_schedule sampleStore 7 1 =
      .ok { sampleStore with
              schedules := mapSet sampleStore.schedules 1
                             { sampleSched with active := true } }
    ∧ ∃ s2, resume_schedule { schedules := mapSet sampleStore.schedules 1
                                { sampleSched with active := false },
                              next_id := 1 } 7 1 = .ok s2
        ∧ mapGet s2.schedules 1 = some { sampleSched with active := true } := by
  have h := resume_spec sampleStore 7 1 sampleSched rfl rfl
  refine ⟨h.1, ?_⟩
  obtain ⟨s2, hr, hg, -, -⟩ :=
    h.2 { sampleStore with
            schedules := mapSet sampleStore.schedules 1
                           { sampleSched with active := false } }
      (pause_eq sampleStore 7 1 sampleSched rfl rfl)
  exact ⟨s2, hr, hg⟩

/-- C10: in `modify_schedule` the `frequency_days` argument only takes
effect when the relevant frequency is Custom. If a non-Custom frequency
is supplied, a supplied `frequency_days` is silently ignored — stored
`frequency_days` unchanged and not validated (the call succeeds even for
`d = 0`). If no frequency is supplied and the stored frequency is not
Custom, a supplied `frequency_days` is likewise ignored: the record is
written back unchanged and the call succeeds. -/
theorem modify_days_ignored (s : Store) (caller schedule_id : Nat)
    (sched : RemittanceSchedule)
    (hget : mapGet s.schedules schedule_id = some sched)
    (hown : sched.owner = caller) :
    (∀ f d, f ≠ .Custom →
      modify_schedule s caller schedule_id none (some f) (some d) none =
        .ok { s with schedules := mapSet s.schedules schedule_id
                                    { sched with frequency := f } })
    ∧ (∀ d, sched.frequency ≠ .Custom →
      modify_schedule s caller schedule_id none none (some d) none =
        .ok { s with schedules := mapSet s.schedules schedule_id sched }) := by
  constructor
  · intro f d hf
    unfold modify_schedule
    rw [hget]
    simp [hown, modAmount, modFrequency, modEnd, hf]
  · intro d hf
    unfold modify_schedule
    rw [hget]
    simp [hown, modAmount, modFrequency, modEnd, hf]

/-- Witness for C10: on the sample Weekly schedule, supplying
`frequency = Monthly` with `frequency_days = 0` succeeds and keeps the
stored `frequency_days`; supplying only `frequency_days = 0` succeeds
and leaves the record unchanged. -/
theorem modify_days_ignored_witness :
    modify_schedule sampleStore 7 1 none (some .Monthly) (some 0) none =
      .ok { sampleStore with
              schedules := mapSet sampleStore.schedules 1
                             { sampleSched with frequency := .Monthly } }
    ∧ modify_schedule sampleStore 7 1 none none (some 0) none =
        .ok { sampleStore with
                schedules := mapSet sampleStore.schedules 1 sampleSched } :=
  ⟨(modify_days_ignored sampleStore 7 1 sampleSched rfl rfl).1 .Monthly 0
     (by decide),
   (modify_days_ignored sampleStore 7 1 sampleSched rfl rfl).2 0 (by decide)⟩

/-- Well-formedness of the instance storage, maintained by the contract:
every stored entry is keyed by its record's `id`, and ids lie in
`1..NEXT_ID` (ids are allocated as `NEXT_ID + 1` and `NEXT_ID` is bumped
with them). -/
def StoreWF (s : Store) : Prop :=
  ∀ p ∈ s.schedules, p.2.id = p.1 ∧ 1 ≤ p.1 ∧ p.1 ≤ s.next_id

/-- Characterization of the eligibility test of `get_ready_schedules`. -/
theorem readyCond_iff (sched : RemittanceSchedule) (now : Nat) :
    readyCond sched now = true ↔
      sched.active = true ∧ sched.next_execution ≤ now ∧
        (∀ e, sched.end_timestamp = some e → now ≤ e) := by
  unfold readyCond
  cases he : sched.end_timestamp with
  | none => simp
  | some e => simp [and_assoc]

/-- C6: under store well-formedness, `get_ready_schedules` returns exactly
the stored schedules that are active, due (`next_execution <= now`) and
not past their end date (`end` absent or `end >= now` — so a schedule
whose end equals `now` is included, as the witness shows), and the
returned sequence is strictly ascending in schedule id (the scan runs
`i = 1..=NEXT_ID`). -/
theorem get_ready_spec (s : Store) (now : Nat) (hwf : StoreWF s) :
    (∀ sched, sched ∈ get_ready_schedules s now ↔
       (mapGet s.schedules sched.id = some sched ∧ sched.active = true ∧
        sched.next_execution ≤ now ∧
        ∀ e, sched.end_timestamp = some e → now ≤ e))
    ∧ (get_ready_schedules s now).Pairwise (fun a b => a.id < b.id) := by
  constructor
  · intro sched
    constructor
    · intro hmem
      unfold get_ready_schedules at hmem
      rw [List.mem_filterMap] at hmem
      obtain ⟨i, hi, hf⟩ := hmem
      cases hg : mapGet s.schedules i with
      | none => simp only [hg] at hf; cases hf
      | some sch =>
        simp only [hg] at hf
        by_cases hr : readyCond sch now
        · rw [if_pos hr] at hf
          cases hf
          have hid := (hwf _ (mapGet_mem hg)).1
          obtain ⟨hact, hdue, hend⟩ := (readyCond_iff sched now).mp hr
          rw [hid]
          exact ⟨hg, hact, hdue, hend⟩
        · rw [if_neg hr] at hf; cases hf
    · rintro ⟨hget, hact, hdue, hend⟩
      unfold get_ready_schedules
      rw [List.mem_filterMap]
      refine ⟨sched.id, ?_, ?_⟩
      · have hb := hwf _ (mapGet_mem hget)
        rw [List.mem_range'_1]
        refine ⟨hb.2.1, ?_⟩
        have := hb.2.2
        omega
      · simp only [hget]
        rw [if_pos ((readyCond_iff sched now).mpr ⟨hact, hdue, hend⟩)]
  · unfold get_ready_schedules
    refine List.Pairwise.filterMap _ ?_ (List.pairwise_lt_range' 1 s.next_id)
    intro a b hab x hx y hy
    rw [Option.mem_def] at hx hy
    cases hga : mapGet s.schedules a with
    | none => simp only [hga] at hx; cases hx
    | some sa =>
      simp only [hga] at hx
      by_cases hra : readyCond sa now
      · rw [if_pos hra] at hx
        cases hx
        cases hgb : mapGet s.schedules b with
        | none => simp only [hgb] at hy; cases hy
        | some sb =>
          simp only [hgb] at hy
          by_cases hrb : readyCond sb now
          · rw [if_pos hrb] at hy
            cases hy
            have ha := (hwf _ (mapGet_mem hga)).1
            have hb := (hwf _ (mapGet_mem hgb)).1
            rw [ha, hb]
            exact hab
          · rw [if_neg hrb] at hy; cases hy
      · rw [if_neg hra] at hx; cases hx

/-- Sample schedule whose end date is exactly the query time 100. -/
def boundarySched : RemittanceSchedule :=
  { sampleSched with end_timestamp := some 100 }

/-- Store holding just `boundarySched`. -/
def boundaryStore : Store := { schedules := [(1, boundarySched)], next_id := 1 }

/-- Witness for C6: a schedule with `end_timestamp = now = 100` is still
returned by `get_ready_schedules`. -/
theorem get_ready_spec_witness :
    boundarySched ∈ get_ready_schedules boundaryStore 100 :=
  ((get_ready_spec boundaryStore 100 (by unfold StoreWF; decide)).1 boundarySched).mpr
    ⟨rfl, rfl, by decide, by intro e h; injection h with h; omega⟩

/-- Call trace exhibiting the C1 invariant violation: create a Weekly
schedule with `frequency_days = 0` (accepted, since the days are only
validated for Custom), then modify it to Custom without supplying
`frequency_days` — `modify_schedule` stores the new frequency and skips
the days check entirely when the argument is absent. -/
def c1Trace : List (Nat × Op) :=
  [(0, .create 1 1000 none .Weekly 0 10 none),
   (0, .modify 1 1 none (some .Custom) none none)]

/-- C1 is violated by the code: after the two calls of `c1Trace` the
store reachable from the empty store holds a schedule with
`frequency = Custom` and `frequency_days = 0`, contradicting the
invariant `frequency = Custom implies frequency_days > 0` that
`create_schedule` (and `modify_schedule`, whenever it does look at a
supplied `frequency_days`) otherwise enforces. -/
theorem c1_invariant_violation :
    (mapGet (runTrace initStore c1Trace).schedules 1).map
        (fun sched => (sched.frequency, sched.frequency_days)) =
      some (ScheduleFrequency.Custom, 0) := by decide

/-- Schedule with `frequency = Custom` and `frequency_days = 0`, exactly
the record produced by `c1Trace` (see `c8_counterexample`). -/
def c8Sched : RemittanceSchedule where
  id := 1
  owner := 1
  amount := 1000
  split_config_id := none
  frequency := .Custom
  frequency_days := 0
  start_timestamp := 10
  end_timestamp := none
  active := true
  last_executed := none
  next_execution := 10
  created_at := 0

/-- Store holding just `c8Sched`. -/
def c8Store : Store := { schedules := [(1, c8Sched)], next_id := 1 }

/-- Store after executing `c8Sched` at time 10: the period is
`0 * 86400 = 0`, so `next_execution` stays 10. -/
def c8After : Store :=
  { schedules := [(1, { c8Sched with last_executed := some 10,
                                     next_execution := 10 })],
    next_id := 1 }

/-- C8 as stated is false for a stored Custom schedule with
`frequency_days = 0` (reachable from the empty store via `c1Trace`):
executing it at time 10 succeeds and leaves `next_execution = 10`, so a
second `execute_schedule` at the same time 10 returns success again — it
re-executes instead of failing with the not-due error. -/
theorem c8_counterexample :
    runTrace initStore c1Trace = c8Store
    ∧ execute_schedule c8Store 10 1 = .ok (.success, c8After, [.Executed])
    ∧ execute_schedule c8After 10 1 = .ok (.success, c8After, [.Executed]) :=
  ⟨by decide, rfl, rfl⟩

/-- C8 (amended): for every stored schedule with a positive execution
period — that is, any schedule honouring the Custom-implies-positive-days
invariant, which excludes only the degenerate `Custom`/`0` records of
`c8_counterexample` — if `execute_schedule` succeeds at time `now`, a
second call at the same `now` fails with the not-due error and leaves the
store unchanged. -/
theorem c8_amended (s : Store) (now schedule_id : Nat)
    (sched : RemittanceSchedule) (s' : Store) (evs : List ScheduleEvent)
    (hget : mapGet s.schedules schedule_id = some sched)
    (hpos : sched.frequency = .Custom → 0 < sched.frequency_days)
    (hx : execute_schedule s now schedule_id = .ok (.success, s', evs)) :
    execute_schedule s' now schedule_id = .error .notReady
    ∧ step s' now (.execute schedule_id) = s' := by
  unfold execute_schedule at hx
  simp only [hget] at hx
  split_ifs at hx with h1 h2 h3
  · simp only [Except.ok.injEq, Prod.mk.injEq] at hx
    exact absurd hx.1 (by intro h; cases h)
  · simp only [Except.ok.injEq, Prod.mk.injEq, true_and] at hx
    obtain ⟨hs, hevs⟩ := hx
    subst hs
    have hact : sched.active = true := by
      cases hA : sched.active
      · exact absurd hA h1
      · rfl
    have hpd : 0 < periodDays sched := by
      unfold periodDays
      cases hfq : sched.frequency with
      | Custom => exact hpos hfq
      | Weekly => simp [ScheduleFrequency.discr]
      | BiWeekly => simp [ScheduleFrequency.discr]
      | Monthly => simp [ScheduleFrequency.discr]
    have hlt : now < now + periodDays sched * 86400 := by
      have h86 : 86400 ≤ periodDays sched * 86400 :=
        Nat.le_mul_of_pos_left 86400 hpd
      omega
    have hnr : execute_schedule
        { s with schedules := mapSet s.schedules schedule_id
                                { sched with last_executed := some now,
                                             next_execution := now + periodDays sched * 86400 } }
        now schedule_id = .error .notReady := by
      unfold execute_schedule
      simp [mapGet_mapSet, hact, hlt]
    exact ⟨hnr, by simp [step, hnr]⟩

/-- Store after the sample weekly schedule executes at its due time 100:
`next_execution` advances to `100 + 7 * 86400`. -/
def sampleAfter : Store :=
  { schedules := [(1, { sampleSched with last_executed := some 100,
                                         next_execution := 100 + 7 * 86400 })],
    next_id := 1 }

/-- Witness for the amended C8: after the sample weekly schedule executes
successfully at time 100, a second call at time 100 fails not-due and
leaves the store unchanged. -/
theorem c8_amended_witness :
    execute_schedule sampleAfter 100 1 = .error .notReady
    ∧ step sampleAfter 100 (.execute 1) = sampleAfter :=
  c8_amended sampleStore 100 1 sampleSched sampleAfter [.Executed] rfl
    (by decide) rfl
